import Mathlib

/-!
Shallow embedding of the chunkgpt library (src/chunkgpt/chunkgpt.py).

The `Chunker` class is embedded as a structure holding the configured
parameters together with an abstract `Encoding` (the tiktoken encoder is an
external collaborator; it is modelled as a pair of functions).  The network
completion client is modelled as a stream of `Completion` values consumed in
call order, and the retry layer as a function from attempt index to a
fallible result.  Python exceptions are modelled with `Except`/`Option`,
Python `int` as `Nat`/`Int` following the validated ranges, and the float
`price_per_token`/`cost` fields as `ℚ` (exact arithmetic).
-/

/-- The tiktoken encoding: converts text to a list of token ids and back.
External collaborator, kept abstract. -/
structure Encoding where
  encode : String → List Nat
  decode : List Nat → String

/-- A concrete stand-in encoding used for witnesses: one token per character. -/
def charEncoding : Encoding where
  encode s := s.data.map Char.toNat
  decode ts := String.mk (ts.map Char.ofNat)

/-- The default system prompt `SYSTEM_MSG` of chunkgpt.py (module constant). -/
def SYSTEM_MSG : String :=
  "You are SUMMIFY, a specialized AI assistant purpose-built to read long pieces of text and produce a concise summary that greatly reduces the overall length of the text without leaving out any critical details.\n\nUsers will hand you an entire document, or just a portion of the document, and it is your job to summarize the content in as few words as possible, while conveying the essential meaning of the text.\n\nYour summary MUST paraphrase the document you are given so that it can directly replace the document 1-for-1, but with a shorter length.\n\nYour summary MUST be concise.\nYour summary MUST be comprehensive.\nYour summary MUST include a concise list of ALL KEY POINTS.\nYour summary MUST exclude any unnecessary fluff.\n"

/-- `USER_MSG.format(text)`: the user-message template of chunkgpt.py with the
payload substituted for the placeholder. -/
def user_msg_format (text : String) : String :=
  "\nTEXT EXCERPT:\n" ++ text ++ "\n\nSUMMARY:\n"

/-- Embeds Python `str.startswith`. -/
def starts_with (pre s : String) : Bool :=
  pre.data.isPrefixOf s.data

/-- `Chunker._get_token_limit`: context-window size by model-name match. -/
def get_token_limit (model : String) : Nat :=
  if starts_with "gpt-3.5-turbo-16k" model then 16384
  else if starts_with "gpt-4-32k" model then 32768
  else if starts_with "gpt-4" model then 8192
  else 4096

/-- `Chunker._get_price_per_token`: price per token (cents) by model name. -/
def get_price_per_token (model : String) : ℚ :=
  if starts_with "gpt-3.5-turbo-16k" model then 3 / 10000
  else if starts_with "gpt-4-32k" model then 6 / 1000
  else if starts_with "gpt-4" model then 3 / 1000
  else 15 / 100000

/-- The configured `Chunker` object (fields set by `Chunker.__init__`). -/
structure Chunker where
  model : String
  max_chunk_length : Nat
  chunk_overlap : Nat
  summary_length : Nat
  temperature : ℚ
  system_msg : String
  encoding : Encoding
  token_limit : Nat
  price_per_token : ℚ

/-- `Chunker._tokenize`. -/
def Chunker.tokenize (c : Chunker) (text : String) : List Nat :=
  c.encoding.encode text

/-- `Chunker._decode`. -/
def Chunker.decode (c : Chunker) (tokens : List Nat) : String :=
  c.encoding.decode tokens

/-- `Chunker._get_complete_token_count`: system prompt + formatted user
message + expected summary length. -/
def Chunker.get_complete_token_count (c : Chunker) (text : String) : Nat :=
  (c.tokenize c.system_msg).length
    + (c.tokenize (user_msg_format text)).length
    + c.summary_length

/-- `Chunker._get_base_token_count`: system prompt + user template with empty
payload. -/
def Chunker.get_base_token_count (c : Chunker) : Nat :=
  (c.tokenize c.system_msg).length + (c.tokenize (user_msg_format "")).length

/-- The configuration failures raised by `Chunker.__init__` (value checks;
the api-key/model-list network validation is outside the embedded core). -/
inductive InitError where
  | invalid_max_chunk_length
  | invalid_chunk_overlap
  | chunk_overlap_too_large
  | invalid_summary_length
  | invalid_temperature
  | token_limit_exceeded (exceeded_by : Nat)
deriving DecidableEq

/-- `Chunker.__init__` value validation and construction (lines 106-152 of
chunkgpt.py).  An empty `custom_system_msg` models Python falsiness of the
default `None`, selecting the default `SYSTEM_MSG`. -/
def Chunker.init (encoding : Encoding) (model custom_system_msg : String)
    (max_chunk_length chunk_overlap summary_length : Int) (temperature : ℚ) :
    Except InitError Chunker :=
  if max_chunk_length ≤ 0 then Except.error InitError.invalid_max_chunk_length
  else if chunk_overlap < 0 then Except.error InitError.invalid_chunk_overlap
  else if max_chunk_length < chunk_overlap then
    Except.error InitError.chunk_overlap_too_large
  else if summary_length ≤ 0 then Except.error InitError.invalid_summary_length
  else if temperature < 0 ∨ 2 < temperature then
    Except.error InitError.invalid_temperature
  else
    let c : Chunker :=
      { model := model
        max_chunk_length := max_chunk_length.toNat
        chunk_overlap := chunk_overlap.toNat
        summary_length := summary_length.toNat
        temperature := temperature
        system_msg := if custom_system_msg = "" then SYSTEM_MSG
                      else custom_system_msg
        encoding := encoding
        token_limit := get_token_limit model
        price_per_token := get_price_per_token model }
    let allowed_tokens :=
      c.get_base_token_count + c.summary_length + c.max_chunk_length
    if c.token_limit < allowed_tokens then
      Except.error (InitError.token_limit_exceeded (allowed_tokens - c.token_limit))
    else Except.ok c

/-- Embeds Python `range(0, n, step)` for `step > 0`: the window start
indices used by `Chunker._chunk`. -/
def chunkStarts (n step : Nat) : List Nat :=
  (List.range ((n + step - 1) / step)).map (fun k => k * step)

/-- `Chunker._chunk`.  Returns `none` exactly when Python raises: with
`chunk_overlap = max_chunk_length` the loop step is `0` and
`range(0, n, 0)` raises `ValueError`. -/
def Chunker.chunk (c : Chunker) (text : String) : Option (List String) :=
  if c.get_complete_token_count text < c.token_limit then some [text]
  else
    let tokens := c.tokenize text
    let chunk_step := c.max_chunk_length - c.chunk_overlap
    if chunk_step = 0 then none
    else
      some ((chunkStarts tokens.length chunk_step).map (fun start =>
        c.decode ((tokens.drop start).take c.max_chunk_length)))

/-- One exchange with the completion service: generated text and token
usage (`completion['choices'][0]['message']['content']` and
`completion['usage']['total_tokens']`). -/
structure Completion where
  content : String
  total_tokens : Nat
deriving DecidableEq

/-- The summary dict built by `Chunker.summarize`. -/
structure Summary where
  original : String
  result : String
  chunks : List (Nat × String × String)
  intermediate_steps : List String
  total_tokens : Nat
  cost : ℚ

/-- Failures surfaced by the embedded `Chunker.summarize`:
`invalid_final_step` is the `ValueError` for an unrecognized `final_step`;
`chunk_step_zero` is the `range` `ValueError` from `_chunk`;
`out_of_completions` and `out_of_fuel` are artifacts of modelling the
completion stream and the unbounded recursion. -/
inductive SummErr where
  | invalid_final_step
  | chunk_step_zero
  | out_of_completions
  | out_of_fuel
deriving DecidableEq

/-- The per-chunk loop of `Chunker.summarize` (lines 182-195): one
completion per chunk, accumulating the combined string, the chunk map, the
step log, token usage and cost.  The completion client is a stream consumed
from the front; `none` models running out of scripted completions. -/
def Chunker.process_chunks (c : Chunker) :
    List String → List Completion → Nat → String →
    List (Nat × String × String) → List String → Nat → ℚ →
    Option (String × List (Nat × String × String) × List String × Nat × ℚ ×
            List Completion)
  | [], oracle, _, combined, cmap, steps, tt, cost =>
    some (combined, cmap, steps, tt, cost, oracle)
  | chunk :: rest, oracle, i, combined, cmap, steps, tt, cost =>
    match oracle with
    | [] => none
    | comp :: oracle =>
      c.process_chunks rest oracle (i + 1)
        (combined ++ (comp.content ++ "\n"))
        (cmap ++ [(i, chunk, comp.content)])
        (steps ++ ["Got completion for chunk " ++ toString i ++ "."])
        (tt + comp.total_tokens)
        (cost + (comp.total_tokens : ℚ) * c.price_per_token)

/-- `Chunker.summarize`.  `fuel` bounds the recursion depth (the Python code
recurses without a bound; `out_of_fuel` is unreachable for terminating runs).
Returns the result together with the unconsumed completion stream. -/
def Chunker.summarize (c : Chunker) :
    Nat → List Completion → String → String →
    Except SummErr Summary × List Completion
  | 0, oracle, _, _ => (Except.error SummErr.out_of_fuel, oracle)
  | fuel + 1, oracle, text, final_step =>
    match c.chunk text with
    | none => (Except.error SummErr.chunk_step_zero, oracle)
    | some chunks =>
      match c.process_chunks chunks oracle 1 "" [] [] 0 0 with
      | none => (Except.error SummErr.out_of_completions, oracle)
      | some (combined_summaries, cmap, steps, tt, cost, rem) =>
        let combined_token_cnt := c.get_complete_token_count combined_summaries
        if final_step = "combine" then
          (Except.ok
            { original := text
              result := combined_summaries
              chunks := cmap
              intermediate_steps :=
                steps ++ ["Returned combined summaries as final step."]
              total_tokens := tt
              cost := cost }, rem)
        else if final_step = "summarize" ∧ c.token_limit ≤ combined_token_cnt then
          match c.summarize fuel rem combined_summaries "summarize" with
          | (Except.error e, rem2) => (Except.error e, rem2)
          | (Except.ok reduced, rem2) =>
            (Except.ok
              { original := text
                result := reduced.result
                chunks := cmap
                intermediate_steps := steps ++
                  ["Reduced summary from " ++ toString combined_token_cnt ++
                   " to " ++ toString (c.get_complete_token_count reduced.result)
                   ++ "."]
                total_tokens := tt + reduced.total_tokens
                cost := cost + reduced.cost }, rem2)
        else if final_step = "summarize" then
          match rem with
          | [] => (Except.error SummErr.out_of_completions, [])
          | comp :: rem2 =>
            (Except.ok
              { original := text
                result := comp.content
                chunks := cmap
                intermediate_steps :=
                  steps ++ ["Got completion for combined summaries."]
                total_tokens := tt + comp.total_tokens
                cost := cost + (comp.total_tokens : ℚ) * c.price_per_token },
             rem2)
        else (Except.error SummErr.invalid_final_step, rem)

/-- `Chunker._get_completion` retry layer.  The client is a function from
attempt index to a fallible result; `attempt` is the index of the next try
and `num_retries` the remaining retry budget (3 on entry).  On success
returns the completion with the total number of attempts made; on exhausted
retries returns `Except.error` carrying the total number of attempts. -/
def get_completion (client : Nat → Except Unit Completion) :
    Nat → Nat → Except Nat (Completion × Nat)
  | attempt, 0 =>
    match client attempt with
    | Except.ok completion => Except.ok (completion, attempt + 1)
    | Except.error _ => Except.error (attempt + 1)
  | attempt, num_retries + 1 =>
    match client attempt with
    | Except.ok completion => Except.ok (completion, attempt + 1)
    | Except.error _ => get_completion client (attempt + 1) num_retries

/-! Concrete instances used for witnesses and counterexamples.  All use the
character-level stand-in encoding, a one-character custom system message and
small limits, so that the kernel can evaluate them. -/

/-- A chunker configured with `max_chunk_length = 10`, `chunk_overlap = 2`
(the configuration of the end-to-end example in the spec). -/
def c1chunker : Chunker :=
  { model := "gpt-4"
    max_chunk_length := 10
    chunk_overlap := 2
    summary_length := 5
    temperature := 0
    system_msg := "S"
    encoding := charEncoding
    token_limit := 50
    price_per_token := 1 }

/-- A 25-character text: 25 tokens under `charEncoding`. -/
def text25 : String := "abcdefghijklmnopqrstuvwxy"

/-- Like `c1chunker` but with `chunk_overlap = 8` (still a configuration the
constructor accepts: `8 < 10`, and `27 + 5 + 10 ≤ 50`). -/
def c2chunker : Chunker :=
  { model := "gpt-4"
    max_chunk_length := 10
    chunk_overlap := 8
    summary_length := 5
    temperature := 0
    system_msg := "S"
    encoding := charEncoding
    token_limit := 50
    price_per_token := 1 }

/-- A chunker with `chunk_overlap = max_chunk_length = 10`: the shape of
configuration that `Chunker.__init__` accepts but that makes the chunking
loop step zero. -/
def cEqOverlap : Chunker :=
  { model := "gpt-4"
    max_chunk_length := 10
    chunk_overlap := 10
    summary_length := 5
    temperature := 0
    system_msg := "S"
    encoding := charEncoding
    token_limit := 50
    price_per_token := 1 }

/-- A chunker splitting `text20` into exactly two non-overlapping chunks. -/
def c8chunker : Chunker :=
  { model := "gpt-4"
    max_chunk_length := 10
    chunk_overlap := 0
    summary_length := 5
    temperature := 0
    system_msg := "S"
    encoding := charEncoding
    token_limit := 50
    price_per_token := 1 }

/-- A 20-character text: two 10-token chunks under `c8chunker`. -/
def text20 : String := "abcdefghijklmnopqrst"

/-- Scripted completion for the first chunk. -/
def cpA : Completion := { content := "A", total_tokens := 7 }

/-- Scripted completion for the second chunk. -/
def cpB : Completion := { content := "B", total_tokens := 9 }

/-- Scripted completion for the final combined summary. -/
def cpC : Completion := { content := "C", total_tokens := 4 }

/-- Scripted completion returned by the recovering retry client. -/
def cpD : Completion := { content := "D", total_tokens := 11 }

/-- A completion client that fails on attempts 0 and 1 and succeeds from
attempt 2 on. -/
def clientRecovers : Nat → Except Unit Completion :=
  fun attempt => if attempt < 2 then Except.error () else Except.ok cpD

/-- A completion client that fails on every attempt. -/
def clientFails : Nat → Except Unit Completion :=
  fun _ => Except.error ()

/-- The summary value produced by `c8chunker.summarize 1 [cpA, cpB] text20
"combine"` (cost left in the exact form the accumulation produces). -/
def sCombine : Summary :=
  { original := text20
    result := "A\nB\n"
    chunks := [(1, "abcdefghij", "A"), (2, "klmnopqrst", "B")]
    intermediate_steps :=
      ["Got completion for chunk 1.", "Got completion for chunk 2.",
       "Returned combined summaries as final step."]
    total_tokens := 16
    cost := (0 + ((7 : ℕ) : ℚ) * c8chunker.price_per_token) +
      ((9 : ℕ) : ℚ) * c8chunker.price_per_token }

/-! Helper lemmas about the window start indices. -/

/-- Number of windows: `k` is a window index iff its start is below `n`. -/
theorem lt_ceil_div {s n k : Nat} (hs : 0 < s) :
    k < (n + s - 1) / s ↔ k * s < n := by
  rw [Nat.lt_iff_add_one_le, Nat.le_div_iff_mul_le hs, Nat.add_mul, Nat.one_mul]
  generalize k * s = a
  omega

/-- Membership in `chunkStarts`: the multiples of `step` strictly below `n`. -/
theorem mem_chunkStarts {n s : Nat} (hs : 0 < s) {i : Nat} :
    i ∈ chunkStarts n s ↔ (∃ k, i = k * s) ∧ i < n := by
  unfold chunkStarts
  simp only [List.mem_map, List.mem_range]
  constructor
  · rintro ⟨k, hk, rfl⟩
    exact ⟨⟨k, rfl⟩, (lt_ceil_div hs).mp hk⟩
  · rintro ⟨⟨k, rfl⟩, hi⟩
    exact ⟨k, (lt_ceil_div hs).mpr hi, rfl⟩

/-- Every token index below `n` is inside some window. -/
theorem chunkStarts_cover {n s L t : Nat} (hs : 0 < s) (hsL : s ≤ L)
    (ht : t < n) : ∃ i ∈ chunkStarts n s, i ≤ t ∧ t < i + L := by
  have hle : t / s * s ≤ t := Nat.div_mul_le_self t s
  refine ⟨t / s * s, (mem_chunkStarts hs).mpr ⟨⟨t / s, rfl⟩, lt_of_le_of_lt hle ht⟩,
    hle, ?_⟩
  have h1 : s * (t / s) + t % s = t := Nat.div_add_mod t s
  have h2 : t % s < s := Nat.mod_lt t hs
  have h3 : t < t / s * s + s := by
    rw [Nat.mul_comm (t / s) s]
    omega
  omega

/-- If `L ≤ 2 * s`, a token inside the overlap of windows `k` and `k + 1`
is inside no other window. -/
theorem window_unique {s L k j t : Nat} (hL2 : L ≤ 2 * s)
    (hk1 : (k + 1) * s ≤ t) (hk2 : t < k * s + L)
    (hj1 : j * s ≤ t) (hj2 : t < j * s + L) : j = k ∨ j = k + 1 := by
  have hj_lt : j < k + 2 := by
    have h3 : j * s < (k + 2) * s := by
      calc j * s ≤ t := hj1
        _ < k * s + L := hk2
        _ ≤ k * s + 2 * s := Nat.add_le_add_left hL2 _
        _ = (k + 2) * s := by ring
    exact lt_of_mul_lt_mul_right h3 (Nat.zero_le s)
  have hk_lt : k + 1 < j + 2 := by
    have h4 : (k + 1) * s < (j + 2) * s := by
      calc (k + 1) * s ≤ t := hk1
        _ < j * s + L := hj2
        _ ≤ j * s + 2 * s := Nat.add_le_add_left hL2 _
        _ = (j + 2) * s := by ring
    exact lt_of_mul_lt_mul_right h4 (Nat.zero_le s)
  omega

/-- C5: for a text whose complete token count is strictly below the token
limit, `_chunk` returns exactly the one-element list holding the original
text unchanged (no tokenize/decode round trip on this path). -/
theorem chunk_fit_returns_original (c : Chunker) (text : String)
    (h : c.get_complete_token_count text < c.token_limit) :
    c.chunk text = some [text] := by
  unfold Chunker.chunk
  rw [if_pos h]

/-- Witness for `chunk_fit_returns_original`: `c1chunker` with the
one-character text `"a"` (complete count `33 < 50`). -/
theorem chunk_fit_returns_original_witness :
    c1chunker.get_complete_token_count "a" < c1chunker.token_limit ∧
    c1chunker.chunk "a" = some ["a"] :=
  ⟨by decide, chunk_fit_returns_original c1chunker "a" (by decide)⟩

/-- C3: the constructor accepts `chunk_overlap = max_chunk_length` (its
check is `chunk_overlap > max_chunk_length`, contradicting both the spec
and its own error message "must be smaller than max_chunk_length"), and a
chunker so configured crashes `_chunk` on any text that needs chunking
(loop step zero, Python `range` `ValueError`). -/
theorem init_accepts_equal_overlap :
    (Chunker.init charEncoding "gpt-3.5-turbo" "S" 10 10 5 0).isOk = true ∧
    cEqOverlap.chunk_overlap = cEqOverlap.max_chunk_length ∧
    cEqOverlap.chunk text25 = none := by
  refine ⟨by decide, by decide, by decide⟩

/-- C1 (amended): with `max_chunk_length = 10`, `chunk_overlap = 2` and a
25-token text beyond the fit threshold, `_chunk` steps by stride 8 through
starts `0, 8, 16, 24` and produces four windows `[0,10)`, `[8,18)`,
`[16,25)`, `[24,25)`. -/
theorem chunk_example_stride_windows (c : Chunker) (text : String)
    (hm : c.max_chunk_length = 10) (ho : c.chunk_overlap = 2)
    (hn : (c.tokenize text).length = 25)
    (hfit : ¬ c.get_complete_token_count text < c.token_limit) :
    chunkStarts (c.tokenize text).length (c.max_chunk_length - c.chunk_overlap)
      = [0, 8, 16, 24] ∧
    c.chunk text = some
      [c.decode (((c.tokenize text).drop 0).take 10),
       c.decode (((c.tokenize text).drop 8).take 10),
       c.decode (((c.tokenize text).drop 16).take 10),
       c.decode (((c.tokenize text).drop 24).take 10)] := by
  have hstarts : chunkStarts (c.tokenize text).length
      (c.max_chunk_length - c.chunk_overlap) = [0, 8, 16, 24] := by
    rw [hn, hm, ho]; decide
  refine ⟨hstarts, ?_⟩
  unfold Chunker.chunk
  rw [if_neg hfit]
  simp only [hm, ho, hn]
  have h82 : (10 : Nat) - 2 = 8 := rfl
  rw [h82, if_neg (by decide : ¬ ((8 : Nat) = 0))]
  have hcs : chunkStarts 25 8 = [0, 8, 16, 24] := by decide
  rw [hcs]
  simp [List.map]

/-- Witness for `chunk_example_stride_windows` at `c1chunker` and
`text25`. -/
theorem chunk_example_stride_windows_witness :
    c1chunker.chunk text25 =
      some ["abcdefghij", "ijklmnopqr", "qrstuvwxy", "y"] :=
  ((chunk_example_stride_windows c1chunker text25 rfl rfl (by decide)
    (by decide)).2).trans (by decide)

/-- C1 (counterexample): the spec example promises exactly three chunks
`[0,10)`, `[8,18)`, `[16,25)` for this configuration; the code produces
four (the loop also runs at `start = 24 < 25`). -/
theorem chunk_example_not_three_chunks :
    c1chunker.chunk text25 =
      some ["abcdefghij", "ijklmnopqr", "qrstuvwxy", "y"] ∧
    c1chunker.chunk text25 ≠
      some ["abcdefghij", "ijklmnopqr", "qrstuvwxy"] := by
  refine ⟨by decide, by decide⟩

/-- C6 (amended): the complete token count is the system prompt count plus
the count of the template wrapped around the text plus `summary_length`;
equivalently, it differs from the spec formula
`base_overhead + count(wrapped text) + summary_length` by exactly the count
of the empty-payload template (which `base_overhead` already includes). -/
theorem complete_token_count_formula (c : Chunker) (text : String) :
    c.get_complete_token_count text =
      (c.tokenize c.system_msg).length
        + (c.tokenize (user_msg_format text)).length + c.summary_length ∧
    c.get_complete_token_count text
        + (c.tokenize (user_msg_format "")).length =
      c.get_base_token_count + (c.tokenize (user_msg_format text)).length
        + c.summary_length := by
  unfold Chunker.get_complete_token_count Chunker.get_base_token_count
  omega

/-- C6 (counterexample): on `c1chunker` and the text `"a"`, the program
computes `33`, while `base_overhead + count(wrapped text) + summary_length`
is `59`: the spec formula double-counts the empty template. -/
theorem complete_token_count_not_base_plus_wrapped :
    c1chunker.get_complete_token_count "a" = 33 ∧
    c1chunker.get_base_token_count
        + (c1chunker.tokenize (user_msg_format "a")).length
        + c1chunker.summary_length = 59 ∧
    (33 : Nat) ≠ 59 := by
  refine ⟨by decide, by decide, by decide⟩

/-- C2 (amended): for every text that requires chunking, under an accepted
configuration (`chunk_overlap < max_chunk_length`), the windows produced by
`_chunk` start strictly below the token count (no empty chunk), cover every
token index, and a token in the overlap of consecutive windows `k`, `k + 1`
lies in both; when moreover `chunk_overlap ≤ stride` (i.e. twice the overlap
is at most `max_chunk_length`) it lies in exactly those two consecutive
windows. -/
theorem chunk_windows_cover (c : Chunker) (text : String) (n L s : Nat)
    (hneed : ¬ c.get_complete_token_count text < c.token_limit)
    (hn : n = (c.tokenize text).length)
    (hL : L = c.max_chunk_length)
    (hs : s = L - c.chunk_overlap)
    (hovl : c.chunk_overlap < L) :
    c.chunk text = some ((chunkStarts n s).map (fun start =>
        c.decode (((c.tokenize text).drop start).take L))) ∧
    (∀ i ∈ chunkStarts n s, i < n) ∧
    (∀ t, t < n → ∃ i ∈ chunkStarts n s, i ≤ t ∧ t < i + L) ∧
    (∀ k t, t < n → (k + 1) * s ≤ t → t < k * s + L →
      (k * s ∈ chunkStarts n s ∧ (k + 1) * s ∈ chunkStarts n s ∧
        k * s ≤ t ∧ t < (k + 1) * s + L) ∧
      (c.chunk_overlap ≤ s →
        ∀ i ∈ chunkStarts n s, i ≤ t → t < i + L →
          i = k * s ∨ i = (k + 1) * s)) := by
  subst hs hL hn
  have hs0 : 0 < c.max_chunk_length - c.chunk_overlap := by omega
  have hsL : c.max_chunk_length - c.chunk_overlap ≤ c.max_chunk_length := by
    omega
  refine ⟨?_, ?_, ?_, ?_⟩
  · unfold Chunker.chunk
    rw [if_neg hneed, if_neg (by omega)]
  · intro i hi
    exact ((mem_chunkStarts hs0).mp hi).2
  · intro t ht
    exact chunkStarts_cover hs0 hsL ht
  · intro k t ht hk1 hk2
    have hks : k * (c.max_chunk_length - c.chunk_overlap) ≤ t := by
      calc k * (c.max_chunk_length - c.chunk_overlap)
          ≤ (k + 1) * (c.max_chunk_length - c.chunk_overlap) :=
            Nat.mul_le_mul_right _ (by omega)
        _ ≤ t := hk1
    refine ⟨⟨?_, ?_, hks, ?_⟩, ?_⟩
    · exact (mem_chunkStarts hs0).mpr ⟨⟨k, rfl⟩, lt_of_le_of_lt hks ht⟩
    · exact (mem_chunkStarts hs0).mpr ⟨⟨k + 1, rfl⟩, lt_of_le_of_lt hk1 ht⟩
    · calc t < k * (c.max_chunk_length - c.chunk_overlap)
            + c.max_chunk_length := hk2
        _ ≤ (k + 1) * (c.max_chunk_length - c.chunk_overlap)
            + c.max_chunk_length := by
          exact Nat.add_le_add_right
            (Nat.mul_le_mul_right _ (by omega)) _
    · intro hhalf i hi hi1 hi2
      obtain ⟨⟨j, rfl⟩, _⟩ := (mem_chunkStarts hs0).mp hi
      have hL2 : c.max_chunk_length ≤
          2 * (c.max_chunk_length - c.chunk_overlap) := by omega
      rcases window_unique hL2 hk1 hk2 hi1 hi2 with h | h
      · exact Or.inl (by rw [h])
      · exact Or.inr (by rw [h])

/-- Witness for `chunk_windows_cover`: `c2chunker` (overlap 8, stride 2)
splits `text25` into thirteen windows. -/
theorem chunk_windows_cover_witness :
    c2chunker.chunk text25 = some
      ["abcdefghij", "cdefghijkl", "efghijklmn", "ghijklmnop", "ijklmnopqr",
       "klmnopqrst", "mnopqrstuv", "opqrstuvwx", "qrstuvwxy", "stuvwxy",
       "uvwxy", "wxy", "y"] :=
  ((chunk_windows_cover c2chunker text25 25 10 2 (by decide) (by decide) rfl
    rfl (by decide)).1).trans (by decide)

/-- C2 (counterexample): with the accepted configuration
`max_chunk_length = 10`, `chunk_overlap = 8` (stride 2), token index 9 of a
25-token text lies in the overlap of the first two windows (`9 ∈ [2, 10)`)
yet is contained in five windows (those starting at 0, 2, 4, 6, 8), not
exactly two. -/
theorem chunk_overlap_token_in_five_windows :
    c2chunker.chunk text25 = some ((chunkStarts 25 2).map (fun start =>
      c2chunker.decode (((c2chunker.tokenize text25).drop start).take 10))) ∧
    (0 + 1) * 2 ≤ 9 ∧ 9 < 0 * 2 + 10 ∧
    (chunkStarts 25 2).filter (fun i => decide (i ≤ 9 ∧ 9 < i + 10))
      = [0, 2, 4, 6, 8] ∧
    ((chunkStarts 25 2).filter (fun i => decide (i ≤ 9 ∧ 9 < i + 10))).length
      ≠ 2 := by
  refine ⟨by decide, by decide, by decide, by decide, by decide⟩

/-- The per-chunk loop succeeds whenever the completion stream is long
enough, consuming exactly one completion per chunk. -/
theorem process_chunks_some (c : Chunker) (chs : List String) :
    ∀ (oracle : List Completion) (i : Nat) (comb : String)
      (cmap : List (Nat × String × String)) (steps : List String)
      (tt : Nat) (cost : ℚ), chs.length ≤ oracle.length →
    ∃ comb2 cmap2 steps2 tt2 cost2,
      c.process_chunks chs oracle i comb cmap steps tt cost =
        some (comb2, cmap2, steps2, tt2, cost2, oracle.drop chs.length) := by
  induction chs with
  | nil =>
    intro oracle i comb cmap steps tt cost _
    exact ⟨comb, cmap, steps, tt, cost, by simp [Chunker.process_chunks]⟩
  | cons ch rest ih =>
    intro oracle i comb cmap steps tt cost hlen
    match oracle with
    | [] => simp at hlen
    | o :: os =>
      simp only [Chunker.process_chunks, List.length_cons,
        List.drop_succ_cons]
      exact ih os (i + 1) _ _ _ _ _ (by simpa using hlen)

/-- C4 (amended): for an unrecognized `final_step`, `summarize` fails with
the invalid-final-step error, but only after requesting one completion per
chunk (the check sits after the per-chunk loop): the returned stream shows
exactly `chunks.length` completions consumed, and no completion is made for
the combined text. -/
theorem summarize_invalid_final_step_error (c : Chunker) (fuel : Nat)
    (oracle : List Completion) (text final_step : String) (chs : List String)
    (h1 : final_step ≠ "combine") (h2 : final_step ≠ "summarize")
    (hch : c.chunk text = some chs) (hlen : chs.length ≤ oracle.length) :
    c.summarize (fuel + 1) oracle text final_step =
      (Except.error SummErr.invalid_final_step, oracle.drop chs.length) := by
  obtain ⟨comb2, cmap2, steps2, tt2, cost2, hpc⟩ :=
    process_chunks_some c chs oracle 1 "" [] [] 0 0 hlen
  simp only [Chunker.summarize, hch, hpc]
  rw [if_neg h1, if_neg (fun h => h2 h.1), if_neg h2]

/-- Witness for `summarize_invalid_final_step_error`: `final_step`
`"neither"` on the one-chunk text `"a"`, with one completion consumed. -/
theorem summarize_invalid_final_step_error_witness :
    c1chunker.summarize 3 [cpA] "a" "neither" =
      (Except.error SummErr.invalid_final_step, []) :=
  summarize_invalid_final_step_error c1chunker 2 [cpA] "a" "neither" ["a"]
    (by decide) (by decide) (by decide) (by decide)

/-- C4 (counterexample): with `final_step = "x"` on a one-chunk text, the
error is raised, but only after the chunk completion request: the scripted
completion `cpA` has been consumed (the remaining stream is empty), so a
network call is made before the failure. -/
theorem summarize_invalid_final_step_after_completion :
    c1chunker.chunk "a" = some ["a"] ∧
    c1chunker.summarize 1 [cpA] "a" "x" =
      (Except.error SummErr.invalid_final_step, []) ∧
    [cpA] ≠ ([] : List Completion) :=
  ⟨by decide, rfl, by decide⟩

/-- C8: `final_step = "combine"` on a two-chunk input returns the two chunk
outputs concatenated in order, each followed by one line break; no
completion is requested for the combined text (the remaining stream is
exactly the part after the two chunk completions), and tokens and cost are
exactly the accumulation of the two chunk completions. -/
theorem summarize_combine_two_chunks (c : Chunker) (fuel : Nat)
    (oracle rest : List Completion) (text ch1 ch2 : String)
    (cp1 cp2 : Completion)
    (hch : c.chunk text = some [ch1, ch2])
    (hor : oracle = cp1 :: cp2 :: rest) :
    c.summarize (fuel + 1) oracle text "combine" =
      (Except.ok
        { original := text
          result := cp1.content ++ "\n" ++ (cp2.content ++ "\n")
          chunks := [(1, ch1, cp1.content), (2, ch2, cp2.content)]
          intermediate_steps :=
            ["Got completion for chunk 1.", "Got completion for chunk 2.",
             "Returned combined summaries as final step."]
          total_tokens := cp1.total_tokens + cp2.total_tokens
          cost := ((cp1.total_tokens + cp2.total_tokens : ℕ) : ℚ) *
            c.price_per_token }, rest) := by
  subst hor
  simp only [Chunker.summarize, hch, Chunker.process_chunks]
  rw [if_pos trivial]
  have htt : 0 + cp1.total_tokens + cp2.total_tokens =
      cp1.total_tokens + cp2.total_tokens := by omega
  have hcost : 0 + (cp1.total_tokens : ℚ) * c.price_per_token +
      (cp2.total_tokens : ℚ) * c.price_per_token =
      ((cp1.total_tokens + cp2.total_tokens : ℕ) : ℚ) * c.price_per_token := by
    push_cast
    ring
  rw [htt, hcost]
  rfl

/-- Witness for `summarize_combine_two_chunks` on `c8chunker`, `text20`
and the scripted completions `cpA`, `cpB`. -/
theorem summarize_combine_two_chunks_witness :
    c8chunker.summarize 1 [cpA, cpB] text20 "combine" =
      (Except.ok
        { original := text20
          result := "A\nB\n"
          chunks := [(1, "abcdefghij", "A"), (2, "klmnopqrst", "B")]
          intermediate_steps :=
            ["Got completion for chunk 1.", "Got completion for chunk 2.",
             "Returned combined summaries as final step."]
          total_tokens := 16
          cost := ((16 : ℕ) : ℚ) * c8chunker.price_per_token }, []) :=
  summarize_combine_two_chunks c8chunker 0 [cpA, cpB] [] text20
    "abcdefghij" "klmnopqrst" cpA cpB (by decide) rfl

/-- C9: with `final_step = "summarize"`, after the per-chunk loop the code
recurses exactly when the combined token count reaches the token limit.
If the combined text fits (count < limit), no recursive call happens: one
final completion over the combined text is consumed and its content is the
result.  Otherwise the result is the recursive summarize of the combined
text, merged into the current totals (the step log discriminates the two
branches). -/
theorem summarize_final_step_reduction (c : Chunker) (fuel : Nat)
    (oracle rest : List Completion) (text comb : String) (chs : List String)
    (cmap : List (Nat × String × String)) (steps : List String)
    (tt : Nat) (cost : ℚ)
    (hch : c.chunk text = some chs)
    (hpc : c.process_chunks chs oracle 1 "" [] [] 0 0 =
      some (comb, cmap, steps, tt, cost, rest)) :
    (c.get_complete_token_count comb < c.token_limit →
      ∀ cp rest2, rest = cp :: rest2 →
      c.summarize (fuel + 1) oracle text "summarize" =
        (Except.ok
          { original := text
            result := cp.content
            chunks := cmap
            intermediate_steps :=
              steps ++ ["Got completion for combined summaries."]
            total_tokens := tt + cp.total_tokens
            cost := cost + (cp.total_tokens : ℚ) * c.price_per_token },
         rest2)) ∧
    (¬ c.get_complete_token_count comb < c.token_limit →
      ∀ reduced rem2,
      c.summarize fuel rest comb "summarize" = (Except.ok reduced, rem2) →
      c.summarize (fuel + 1) oracle text "summarize" =
        (Except.ok
          { original := text
            result := reduced.result
            chunks := cmap
            intermediate_steps := steps ++
              ["Reduced summary from " ++
               toString (c.get_complete_token_count comb) ++ " to " ++
               toString (c.get_complete_token_count reduced.result) ++ "."]
            total_tokens := tt + reduced.total_tokens
            cost := cost + reduced.cost },
         rem2)) := by
  constructor
  · intro hlt cp rest2 hrest
    subst hrest
    simp only [Chunker.summarize, hch, hpc]
    rw [if_neg (by decide : ¬ (("summarize" : String) = "combine")),
      if_neg (by simp [Nat.not_le.mpr hlt]), if_pos trivial]
  · intro hge reduced rem2 hrec
    simp only [Chunker.summarize, hch, hpc]
    rw [if_neg (by decide : ¬ (("summarize" : String) = "combine")),
      if_pos ⟨trivial, Nat.not_lt.mp hge⟩, hrec]

/-- The per-chunk loop preserves the accounting invariants: cost stays
equal to accumulated tokens times the per-token price, and the chunk map
keys stay exactly `1..n` in order. -/
theorem process_chunks_inv (c : Chunker) (chs : List String) :
    ∀ (oracle : List Completion) (i : Nat) (comb : String)
      (cmap : List (Nat × String × String)) (steps : List String)
      (tt : Nat) (cost : ℚ) (comb2 : String)
      (cmap2 : List (Nat × String × String)) (steps2 : List String)
      (tt2 : Nat) (cost2 : ℚ) (rem : List Completion),
    i = cmap.length + 1 →
    c.process_chunks chs oracle i comb cmap steps tt cost =
      some (comb2, cmap2, steps2, tt2, cost2, rem) →
    cost = (tt : ℚ) * c.price_per_token →
    cmap.map (fun e => e.1) = List.range' 1 cmap.length →
    cost2 = (tt2 : ℚ) * c.price_per_token ∧
    cmap2.map (fun e => e.1) = List.range' 1 cmap2.length := by
  induction chs with
  | nil =>
    intro oracle i comb cmap steps tt cost comb2 cmap2 steps2 tt2 cost2 rem
      hi h hc hm
    simp only [Chunker.process_chunks, Option.some.injEq, Prod.mk.injEq] at h
    obtain ⟨-, rfl, -, rfl, rfl, -⟩ := h
    exact ⟨hc, hm⟩
  | cons ch rest ih =>
    intro oracle i comb cmap steps tt cost comb2 cmap2 steps2 tt2 cost2 rem
      hi h hc hm
    match oracle with
    | [] => simp [Chunker.process_chunks] at h
    | o :: os =>
      simp only [Chunker.process_chunks] at h
      refine ih os (i + 1) _ (cmap ++ [(i, ch, o.content)]) _ _ _
        comb2 cmap2 steps2 tt2 cost2 rem ?_ h ?_ ?_
      · simp [hi]
      · rw [hc]
        push_cast
        ring
      · rw [List.map_append, hm, List.length_append]
        have hconc : List.range' 1 (cmap.length + 1) =
            List.range' 1 cmap.length ++ [1 + cmap.length] := by
          simpa using @List.range'_concat 1 1 cmap.length
        simp [hconc, hi, Nat.add_comm]

/-- C10: every successful `summarize` result satisfies the accounting
invariants: `cost = total_tokens * price_per_token` exactly, the `original`
field is the input text, and the chunk-map keys are exactly `1..n` in
order. -/
theorem summarize_invariants (fuel : Nat) : ∀ (c : Chunker)
    (oracle : List Completion) (text final_step : String) (s : Summary)
    (rem : List Completion),
    c.summarize fuel oracle text final_step = (Except.ok s, rem) →
    s.cost = (s.total_tokens : ℚ) * c.price_per_token ∧
    s.original = text ∧
    s.chunks.map (fun e => e.1) = List.range' 1 s.chunks.length := by
  induction fuel with
  | zero =>
    intro c oracle text fs s rem h
    simp [Chunker.summarize] at h
  | succ f ih =>
    intro c oracle text fs s rem h
    simp only [Chunker.summarize] at h
    split at h
    · simp at h
    · rename_i chs hch
      split at h
      · simp at h
      · rename_i comb cmap steps tt cost rest hpc
        obtain ⟨hc, hm⟩ := process_chunks_inv c chs oracle 1 "" [] [] 0 0
          comb cmap steps tt cost rest (by simp) hpc (by simp) (by simp)
        split at h
        · simp only [Prod.mk.injEq, Except.ok.injEq] at h
          obtain ⟨rfl, -⟩ := h
          exact ⟨hc, rfl, hm⟩
        · split at h
          · split at h
            · simp at h
            · rename_i reduced rem2 hr
              simp only [Prod.mk.injEq, Except.ok.injEq] at h
              obtain ⟨rfl, -⟩ := h
              obtain ⟨ihc, -, -⟩ := ih c rest comb "summarize" reduced rem2 hr
              refine ⟨?_, rfl, hm⟩
              show cost + reduced.cost =
                ((tt + reduced.total_tokens : ℕ) : ℚ) * c.price_per_token
              rw [hc, ihc]
              push_cast
              ring
          · split at h
            · split at h
              · simp at h
              · rename_i comp rem2
                simp only [Prod.mk.injEq, Except.ok.injEq] at h
                obtain ⟨rfl, -⟩ := h
                refine ⟨?_, rfl, hm⟩
                show cost + (comp.total_tokens : ℚ) * c.price_per_token =
                  ((tt + comp.total_tokens : ℕ) : ℚ) * c.price_per_token
                rw [hc]
                push_cast
                ring
            · simp at h

/-- Witness for `summarize_final_step_reduction` (fits branch): two chunks,
combined summary `"A\nB\n"` fits below the limit, one final completion
`cpC` is consumed and no recursion happens. -/
theorem summarize_final_step_reduction_witness :
    c8chunker.get_complete_token_count "A\nB\n" < c8chunker.token_limit ∧
    c8chunker.summarize 1 [cpA, cpB, cpC] text20 "summarize" =
      (Except.ok
        { original := text20
          result := "C"
          chunks := [(1, "abcdefghij", "A"), (2, "klmnopqrst", "B")]
          intermediate_steps :=
            ["Got completion for chunk 1.", "Got completion for chunk 2.",
             "Got completion for combined summaries."]
          total_tokens := 20
          cost := ((0 + ((7 : ℕ) : ℚ) * c8chunker.price_per_token) +
            ((9 : ℕ) : ℚ) * c8chunker.price_per_token) +
            ((4 : ℕ) : ℚ) * c8chunker.price_per_token }, []) :=
  ⟨by decide,
   (summarize_final_step_reduction c8chunker 0 [cpA, cpB, cpC] [cpC] text20
      "A\nB\n" ["abcdefghij", "klmnopqrst"]
      [(1, "abcdefghij", "A"), (2, "klmnopqrst", "B")]
      ["Got completion for chunk 1.", "Got completion for chunk 2."]
      16
      ((0 + ((7 : ℕ) : ℚ) * c8chunker.price_per_token) +
        ((9 : ℕ) : ℚ) * c8chunker.price_per_token)
      (by decide) rfl).1 (by decide) cpC [] rfl⟩

/-- Witness for `summarize_invariants` on the concrete two-chunk combine
run of `c8chunker`. -/
theorem summarize_invariants_witness :
    sCombine.cost = (sCombine.total_tokens : ℚ) * c8chunker.price_per_token ∧
    sCombine.original = text20 ∧
    sCombine.chunks.map (fun e => e.1) =
      List.range' 1 sCombine.chunks.length :=
  summarize_invariants 1 c8chunker [cpA, cpB] text20 "combine" sCombine [] rfl

/-- If the client fails on the first `k` attempts (shifted by `attempt`)
and succeeds on attempt `attempt + k` with `k ≤ num_retries`, the retry
loop returns that success after `attempt + k + 1` total attempts. -/
theorem get_completion_ok (client : Nat → Except Unit Completion) :
    ∀ (k n attempt : Nat) (comp : Completion), k ≤ n →
    (∀ i, i < k → client (attempt + i) = Except.error ()) →
    client (attempt + k) = Except.ok comp →
    get_completion client attempt n = Except.ok (comp, attempt + k + 1) := by
  intro k
  induction k with
  | zero =>
    intro n attempt comp _ _ hok
    rw [show attempt + 0 = attempt from rfl] at hok
    cases n with
    | zero => simp [get_completion, hok]
    | succ n => simp [get_completion, hok]
  | succ k ihk =>
    intro n attempt comp hkn hfail hok
    match n with
    | 0 => omega
    | n + 1 =>
      have h0 : client attempt = Except.error () := by
        have := hfail 0 (by omega)
        simpa using this
      simp only [get_completion, h0]
      have hrec := ihk n (attempt + 1) comp (by omega)
        (fun i hi => by
          rw [show attempt + 1 + i = attempt + (i + 1) by omega]
          exact hfail (i + 1) (by omega))
        (by rw [show attempt + 1 + k = attempt + (k + 1) by omega]; exact hok)
      rw [hrec]
      congr 2
      omega

/-- If the client fails on every attempt, the retry loop fails after
`attempt + n + 1` total attempts (one initial try plus `n` retries). -/
theorem get_completion_fails (client : Nat → Except Unit Completion)
    (h : ∀ i, client i = Except.error ()) :
    ∀ (n attempt : Nat),
    get_completion client attempt n = Except.error (attempt + n + 1) := by
  intro n
  induction n with
  | zero =>
    intro attempt
    simp [get_completion, h attempt]
  | succ n ihn =>
    intro attempt
    simp only [get_completion, h attempt]
    rw [ihn (attempt + 1)]
    congr 1
    omega

/-- C7: with the default retry budget 3, a client failing exactly
`k ≤ 3` times then succeeding yields the success after `k + 1` attempts
with no error; a client failing always yields the exhausted error after
exactly `3 + 1 = 4` attempts. -/
theorem get_completion_retry_bound :
    (∀ (client : Nat → Except Unit Completion) (k : Nat) (comp : Completion),
      k ≤ 3 → (∀ i, i < k → client i = Except.error ()) →
      client k = Except.ok comp →
      get_completion client 0 3 = Except.ok (comp, k + 1)) ∧
    (∀ client : Nat → Except Unit Completion,
      (∀ i, client i = Except.error ()) →
      get_completion client 0 3 = Except.error 4) := by
  constructor
  · intro client k comp hk hfail hok
    have := get_completion_ok client k 3 0 comp hk
      (fun i hi => by simpa using hfail i hi) (by simpa using hok)
    simpa using this
  · intro client h
    simpa using get_completion_fails client h 3 0

/-- Witness for `get_completion_retry_bound`: a client failing twice then
succeeding (3 attempts, result `cpD`), and a client that always fails
(error after 4 attempts). -/
theorem get_completion_retry_bound_witness :
    get_completion clientRecovers 0 3 = Except.ok (cpD, 3) ∧
    get_completion clientFails 0 3 = Except.error 4 :=
  ⟨get_completion_retry_bound.1 clientRecovers 2 cpD (by decide)
      (fun i hi => by simp [clientRecovers, hi])
      (by simp [clientRecovers]),
   get_completion_retry_bound.2 clientFails (fun _ => rfl)⟩
